import Mathlib

/-!
Verification of the qiskit-textbook repository against its natural-language
specification.  The development shallowly embeds the two source modules:

* `src/notebooks/intro/hello_quantum.py` — the interactive "Hello Quantum"
  puzzle/grid visualizer (`run_game`, `pauli_grid`), embedded in namespace
  `HelloQuantum`;
* `src/tests/passes/toc.py` — the table-of-contents validator, embedded in
  namespace `TocValidator`.

Python dictionaries are embedded as association lists (insertion order is
iteration order, matching CPython) or as total functions where only lookup
is performed; machine reals appearing in the program are exact rationals
here (all arithmetic in the program is on exact simulator probabilities);
fallible code returns `Except`/`Option`.
-/

set_option maxHeartbeats 1000000

namespace HelloQuantum

/-- One character of a two-character Pauli string, over the alphabet
`{I, X, Y, Z}` used throughout `hello_quantum.py`. -/
inductive PChar where
  | I | X | Y | Z
deriving DecidableEq, Repr

/-- A two-qubit Pauli string such as `'ZI'`: the first component is the
character at string index 0 (which the code associates with qubit 0), the
second the character at index 1 (qubit 1). -/
abbrev Pauli : Type := PChar × PChar

/-- `pauliChar p j` is `p[j]`, the character of the Pauli string at string
index `j`. -/
def pauliChar (p : Pauli) (j : Fin 2) : PChar :=
  if j = 0 then p.1 else p.2

/-- A measured two-bit result string, as produced by the backend: `c0` is the
character at string index 0 (qubit 1's bit, in the backend's key convention)
and `c1` the character at index 1 (qubit 0's bit); `true` stands for `'1'`. -/
structure Outcome where
  c0 : Bool
  c1 : Bool
deriving DecidableEq, Repr

/-- `strAt o i` reads character `i` of the result string `o`. -/
def strAt (o : Outcome) (i : Fin 2) : Bool :=
  if i = 0 then o.c0 else o.c1

/-- `(j+1) % 2`, the string index at which qubit `j`'s measured bit sits
(computed exactly as in `get_rho`). -/
def otherIdx (j : Fin 2) : Fin 2 :=
  ⟨(j.val + 1) % 2, Nat.mod_lt _ (by omega)⟩

/-! ### Success predicate (`get_success`, hello_quantum.py lines 101–113)

`required_gates` is a dict of dicts `qubit -> gate -> int`; we embed it as an
association list so the nested `for` loops of the source can be reproduced.
`grid.rho` is a dict indexed by the Pauli strings of `success_condition`;
lookup is total on those keys whenever `get_rho` has run, so it is embedded
as a total function. -/

/-- Required-gate counters: association list from qubit category
(`'0'`, `'1'`, `'both'`) to an association list from gate name to counter,
mirroring the nested dict `required_gates`. -/
abbrev RG : Type := List (String × List (String × Int))

/-- `get_success` (lines 101–113): folds `success = success and …` over every
entry of `success_condition` (within-`eps` test) and then over every counter
of `required_gates` (zero test). -/
def get_success (success_condition : List (Pauli × ℚ)) (rho : Pauli → ℚ)
    (eps : ℚ) (required_gates : RG) : Bool :=
  let s1 := success_condition.foldl
    (fun s pt => s && decide (|pt.2 - rho pt.1| < eps)) true
  required_gates.foldl
    (fun s qgs => qgs.2.foldl (fun t gn => t && decide (gn.2 = 0)) s) s1

/-! ### Required-gate counter update (`given_action`, lines 255–256) -/

/-- The counter mutation performed by one accepted action
(`if required_gates[q01][gate.value]>0: required_gates[q01][gate.value] -= 1`):
the entry at keys `(q, g)` is decremented when positive and left unchanged
otherwise; all other entries are untouched. -/
def decCounter (rg : RG) (q g : String) : RG :=
  rg.map fun qgs =>
    if qgs.1 = q then
      (qgs.1, qgs.2.map fun gn =>
        if gn.1 = g then (gn.1, if 0 < gn.2 then gn.2 - 1 else gn.2) else gn)
    else qgs

/-- Dict lookup `required_gates[q][g]` (as an `Option`, `none` embedding a
`KeyError`). -/
def rgGet (rg : RG) (q g : String) : Option Int :=
  (rg.find? (fun x => x.1 = q)).bind fun qgs =>
    (qgs.2.find? (fun x => x.1 = g)).map fun gn => gn.2

/-- Run a sequence of accepted actions, each action being the pair
(qubit category, chosen gate name), against the counters. -/
def run_actions (rg : RG) (acts : List (String × String)) : RG :=
  acts.foldl (fun s a => decCounter s a.1 a.2) rg

/-! ### Exact statevector backend (`get_rho`, lines 356–412, `backend=None` branch)

`get_rho` deep-copies the current circuit, appends the basis rotation for each
measurement basis (`h` for `'X'`, `sdg` then `h` for `'Y'`, nothing
otherwise), and with `backend=None` reads the exact outcome distribution
`Statevector.from_instruction(temp_qc).probabilities_dict()`.

Only `h` and `sdg` are ever applied by the rotation loop, so every amplitude
reachable from the circuit's output state is a Gaussian integer divided by
`√2 ^ k` with one factor of `√2` per Hadamard.  We represent an amplitude by
its Gaussian-integer numerator and keep the global exponent `k` in the state,
which makes every outcome probability an exact rational. -/

/-- A Gaussian integer `re + im·i`, the numerator of an amplitude. -/
structure GI where
  re : Int
  im : Int
deriving DecidableEq, Repr

/-- Componentwise addition of amplitude numerators. -/
def GI.add (a b : GI) : GI := ⟨a.re + b.re, a.im + b.im⟩

/-- Componentwise subtraction of amplitude numerators. -/
def GI.sub (a b : GI) : GI := ⟨a.re - b.re, a.im - b.im⟩

/-- Multiplication by `-i`, the effect of `sdg` on a `|1⟩` amplitude. -/
def GI.mulNegI (z : GI) : GI := ⟨z.im, -z.re⟩

/-- `|re + im·i|²`. -/
def GI.normSq (z : GI) : Int := z.re * z.re + z.im * z.im

/-- A two-qubit statevector: `amps o` is the numerator of the amplitude of
the basis state whose measurement result string is `o`, and the actual
amplitude is `amps o / √2 ^ hpow`. -/
structure QState where
  amps : Outcome → GI
  hpow : Nat

/-- `getQ o j` is qubit `j`'s bit in the result string `o` (qubit 0 sits at
string index 1, qubit 1 at string index 0, the backend's key convention). -/
def getQ (o : Outcome) (j : Fin 2) : Bool :=
  if j = 0 then o.c1 else o.c0

/-- `setQ o j b` overwrites qubit `j`'s bit in `o`. -/
def setQ (o : Outcome) (j : Fin 2) (b : Bool) : Outcome :=
  if j = 0 then { o with c1 := b } else { o with c0 := b }

/-- `temp_qc.h(qr[j])`: the Hadamard on qubit `j`, adding one `√2` to the
denominator exponent. -/
def applyH (j : Fin 2) (s : QState) : QState :=
  { amps := fun o =>
      if getQ o j = false then
        GI.add (s.amps (setQ o j false)) (s.amps (setQ o j true))
      else GI.sub (s.amps (setQ o j false)) (s.amps (setQ o j true)),
    hpow := s.hpow + 1 }

/-- `temp_qc.sdg(qr[j])`: the inverse-phase gate on qubit `j`. -/
def applySdg (j : Fin 2) (s : QState) : QState :=
  { s with amps := fun o => if getQ o j then (s.amps o).mulNegI else s.amps o }

/-- The basis-rotation loop of `get_rho` (lines 372–377): for `j = 0, 1`,
apply `h` if `basis[j] == 'X'` and `sdg` then `h` if `basis[j] == 'Y'`. -/
def rotate (basis : Pauli) (s : QState) : QState :=
  let s0 := match basis.1 with
    | PChar.X => applyH 0 s
    | PChar.Y => applyH 0 (applySdg 0 s)
    | _ => s
  match basis.2 with
  | PChar.X => applyH 1 s0
  | PChar.Y => applyH 1 (applySdg 1 s0)
  | _ => s0

/-- The exact probability `probabilities_dict()[o]` of result string `o`. -/
def probOf (s : QState) (o : Outcome) : ℚ :=
  ((s.amps o).normSq : ℚ) / (2 : ℚ) ^ s.hpow

/-- The `|00⟩` state, `Statevector([1,0,0,0])` (the state of the freshly
constructed `pauli_grid` circuit, to which no gate has been applied). -/
def ket00 : QState :=
  { amps := fun o => if o.c0 = false ∧ o.c1 = false then ⟨1, 0⟩ else ⟨0, 0⟩,
    hpow := 0 }

/-! ### Expectation-value aggregation (`get_rho`, lines 391–412) -/

/-- `ps` (lines 361/364): the single-qubit observable letters. -/
def ps (y_boxes : Bool) : List PChar :=
  if y_boxes then [PChar.X, PChar.Y, PChar.Z] else [PChar.X, PChar.Z]

/-- `corr` (lines 360/363): the measurement bases / correlator strings, in
source order. -/
def corr (y_boxes : Bool) : List Pauli :=
  if y_boxes then
    [(PChar.Z, PChar.Z), (PChar.Z, PChar.X), (PChar.X, PChar.Z),
     (PChar.X, PChar.X), (PChar.Y, PChar.Y), (PChar.Y, PChar.X),
     (PChar.Y, PChar.Z), (PChar.X, PChar.Y), (PChar.Z, PChar.Y)]
  else
    [(PChar.Z, PChar.Z), (PChar.Z, PChar.X), (PChar.X, PChar.Z),
     (PChar.X, PChar.X)]

/-- Line 396: `(j==1)*pp + p + (j==0)*pp` — the Pauli string with `p` at
index `j` and `pp` at the other index. -/
def mkPauli (j : Fin 2) (p pp : PChar) : Pauli :=
  if j = 0 then (p, pp) else (pp, p)

/-- The four possible result strings; `for string in results[basis]` iterates
the keys of the outcome dictionary, and summing over all four outcomes agrees
with it because absent keys carry probability zero. -/
def outcomes : List Outcome :=
  [⟨false, false⟩, ⟨false, true⟩, ⟨true, false⟩, ⟨true, true⟩]

/-- `self.y_boxes` coerced to a number, as in `2 + self.y_boxes`. -/
def bval (y_boxes : Bool) : ℚ := if y_boxes then 1 else 0

/-- Lines 395–402: the accumulated `prob[pauli['I']]` for qubit `j` and
letter `p` — for each `ppp` in `ps` and each result string of basis
`pauli[ppp]` whose character `(j+1)%2` is `'1'`, add
`results[basis][string]/(2+self.y_boxes)`. -/
def singleProb (y_boxes : Bool) (results : Pauli → Outcome → ℚ)
    (j : Fin 2) (p : PChar) : ℚ :=
  (ps y_boxes).foldl
    (fun acc ppp =>
      outcomes.foldl
        (fun a o =>
          if strAt o (otherIdx j) = true then
            a + results (mkPauli j p ppp) o / (2 + bval y_boxes)
          else a)
        acc)
    0

/-- Lines 405–409: the accumulated `prob[basis]` for a correlator — the total
probability of result strings with `string[0] != string[1]`. -/
def corrProb (results : Pauli → Outcome → ℚ) (basis : Pauli) : ℚ :=
  outcomes.foldl
    (fun a o => if o.c0 ≠ o.c1 then a + results basis o else a) 0

/-- Lines 391–412: build the `prob` dictionary in loop order (`j = 0` with
every `p` in `ps`, then `j = 1`, then every correlator basis) and map it to
`self.rho` via `1 - 2*prob[pauli]`. -/
def rho_update (y_boxes : Bool) (results : Pauli → Outcome → ℚ) :
    List (Pauli × ℚ) :=
  let singles :=
    ((ps y_boxes).map fun p =>
      (mkPauli 0 p PChar.I, singleProb y_boxes results 0 p)) ++
    ((ps y_boxes).map fun p =>
      (mkPauli 1 p PChar.I, singleProb y_boxes results 1 p))
  let corrs := (corr y_boxes).map fun b => (b, corrProb results b)
  (singles ++ corrs).map fun pv => (pv.1, 1 - 2 * pv.2)

/-- `get_rho` with the exact statevector backend, for the circuit whose
output state is `s`: rotate into each basis, read the exact outcome
distribution, and aggregate. -/
def get_rho (y_boxes : Bool) (s : QState) : List (Pauli × ℚ) :=
  rho_update y_boxes (fun basis o => probOf (rotate basis s) o)

/-! Declarative restatements of the aggregation (the spec's description of
the sampling-to-expectation formula), used to compare against the loop-built
`rho_update`. -/

/-- Modelled from the spec: the probability of outcome `'1'` on qubit `j`
in one measurement basis. -/
def probOne (results : Pauli → Outcome → ℚ) (basis : Pauli) (j : Fin 2) : ℚ :=
  ((outcomes.filter fun o => strAt o (otherIdx j)).map (results basis)).sum

/-- Modelled from the spec: the `-1`-outcome probability of a single-qubit
marginal — the sum, over all measurement bases whose character for qubit `j`
is `p`, of the probability of outcome `'1'` on that qubit, each contribution
divided by the literal quantity `2 + y_boxes`. -/
def probSpecSingle (y_boxes : Bool) (results : Pauli → Outcome → ℚ)
    (j : Fin 2) (p : PChar) : ℚ :=
  (((corr y_boxes).filter fun b => decide (pauliChar b j = p)).map
    fun b => probOne results b j / (2 + bval y_boxes)).sum

/-- Modelled from the spec: the `-1`-outcome probability of a two-qubit
correlator — the total probability of anticorrelated (unequal) bit pairs in
that correlator's basis. -/
def probSpecCorr (results : Pauli → Outcome → ℚ) (basis : Pauli) : ℚ :=
  ((outcomes.filter fun o => o.c0 != o.c1).map (results basis)).sum

/-- Modelled from the spec: the `-1`-outcome probability of any Pauli
observable appearing in the expectation map. -/
def probSpec (y_boxes : Bool) (results : Pauli → Outcome → ℚ) :
    Pauli → ℚ
  | (p, PChar.I) => probSpecSingle y_boxes results 0 p
  | (PChar.I, p) => probSpecSingle y_boxes results 1 p
  | p => probSpecCorr results p

/-! ### Box visibility (`see_if_unhidden`, lines 436–452) -/

/-- `see_if_unhidden` (lines 436–452): `rhoKeys` is the key set of the
current `self.rho` dictionary; `hidden`, `qubit` and `corr` are the
`update_grid` arguments of the same names.  The source folds
`unhidden = unhidden and …` through four conditions, the last being
`pauli in self.rho`. -/
def see_if_unhidden (rhoKeys : List Pauli) (hidden : List (Fin 2))
    (qubit : Bool) (corr : Bool) (pauli : Pauli) : Bool :=
  let u1 := hidden.foldl (fun u j => u && decide (pauliChar pauli j = PChar.I)) true
  let u2 :=
    if qubit = false then
      ([0, 1] : List (Fin 2)).foldl
        (fun u j => u &&
          decide (pauliChar pauli j = PChar.I ∨ pauliChar pauli j = PChar.Z)) u1
    else u1
  let u3 :=
    if corr = false then
      u2 && decide (pauliChar pauli 0 = PChar.I ∨ pauliChar pauli 1 = PChar.I)
    else u2
  u3 && decide (pauli ∈ rhoKeys)

/-- Modelled from the spec: the conjunction of exactly the three documented
visibility filters — (a) the Pauli acts trivially on every hidden qubit,
(b) in classical-bit mode both characters are in `{I, Z}`, (c) with
correlations disabled at least one character is `'I'`. -/
def three_filter_spec (hidden : List (Fin 2)) (qubit : Bool) (corr : Bool)
    (pauli : Pauli) : Bool :=
  (hidden.all fun j => decide (pauliChar pauli j = PChar.I)) &&
  (qubit ||
    (decide (pauliChar pauli 0 = PChar.I ∨ pauliChar pauli 0 = PChar.Z) &&
     decide (pauliChar pauli 1 = PChar.I ∨ pauliChar pauli 1 = PChar.Z))) &&
  (corr ||
    decide (pauliChar pauli 0 = PChar.I ∨ pauliChar pauli 1 = PChar.I))

/-- Lines 510–513 of `update_grid`: `self.rho = rho`, falling back to the
computed map only when the supplied dictionary is `None` or empty. -/
def update_grid_rho (given : Option (List (Pauli × ℚ)))
    (computed : List (Pauli × ℚ)) : List (Pauli × ℚ) :=
  match given with
  | none => computed
  | some [] => computed
  | some r => r

/-! ### Gate commands (`get_command`, lines 118–147) -/

/-- The gate names accepted by some branch of `get_command`; any other name
reaches `return [real_command, clean_command]` with both variables unbound,
raising `UnboundLocalError`. -/
def gate_vocab : List String :=
  ["x", "y", "z", "h", "ry(pi/4)", "ry(-pi/4)", "rx(pi/4)", "rx(-pi/4)",
   "cz", "cx", "swap"]

/-- `get_command` (lines 118–147), for qubit names
`qubit_names = {'0': name0, '1': name1}`: returns
`[real_command, clean_command]`, or `none` where the source raises
(an unrecognised gate name, a qubit key outside `{'0','1','both'}`, or the
two-qubit branch with `other_name` never assigned). -/
def get_command (name0 name1 gate qubitArg : String) :
    Option (String × String) :=
  let qubit := if qubitArg = "both" then "1" else qubitArg
  if qubit = "0" ∨ qubit = "1" then
    let qubit_name := if qubit = "0" then name0 else name1
    let other_name? : Option String :=
      if name1 ≠ qubit_name then some name1
      else if name0 ≠ qubit_name then some name0
      else none
    if gate ∈ ["x", "y", "z", "h"] then
      some ("grid.qc." ++ gate ++ "(grid.qr[" ++ qubit ++ "])",
            "qc." ++ gate ++ "(" ++ qubit_name ++ ")")
    else if gate ∈ ["ry(pi/4)", "ry(-pi/4)"] then
      let m := if gate = "ry(-pi/4)" then "-" else ""
      some ("grid.qc.ry(" ++ m ++ "np.pi/4,grid.qr[" ++ qubit ++ "])",
            "qc.ry(" ++ m ++ "np.pi/4," ++ qubit_name ++ ")")
    else if gate ∈ ["rx(pi/4)", "rx(-pi/4)"] then
      let m := if gate = "rx(-pi/4)" then "-" else ""
      some ("grid.qc.rx(" ++ m ++ "np.pi/4,grid.qr[" ++ qubit ++ "])",
            "qc.rx(" ++ m ++ "np.pi/4," ++ qubit_name ++ ")")
    else if gate ∈ ["cz", "cx", "swap"] then
      match other_name? with
      | some other_name =>
        some ("grid.qc." ++ gate ++ "(grid.qr[" ++
                (if qubit = "1" then "0" else "") ++
                (if qubit = "0" then "1" else "") ++ "],grid.qr[" ++
                qubit ++ "])",
              "qc." ++ gate ++ "(" ++ other_name ++ "," ++ qubit_name ++ ")")
      | none => none
    else none
  else none

/-- The initializer loop of `run_game.__init__` (lines 157–161) with the
default `qubit_names`: each `(gate, qubit)` pair is turned into a command
pair and applied in order; the first failing `get_command` aborts the
construction. -/
def applyInitializer : List (String × String) → Option (List (String × String))
  | [] => some []
  | g :: gs =>
    match get_command "q[0]" "q[1]" g.1 g.2, applyInitializer gs with
    | some c, some cs => some (c :: cs)
    | _, _ => none

/-! ### Widget state machine (`given_gate` / `given_qubit` / `given_action`,
lines 207–273)

The three `ToggleButtons` are embedded as their option list plus current
value; assigning `options` in ipywidgets forces the value into the new list,
which the transitions reproduce.  The backend is the abstract deterministic
collaborator `computeRho`, mapping the gate list of `grid.qc` to the
expectation map read by `get_success`. -/

/-- The puzzle configuration captured by the `run_game.__init__` closure. -/
structure GameCfg where
  success_condition : List (Pauli × ℚ)
  eps : ℚ
  allowed0 : List String
  allowed1 : List String
  allowed_both : List String
  name0 : String
  name1 : String
  chooseQubit : String

/-- The mutable state shared by the three widget callbacks. -/
structure GameState where
  qc : List (String × String)
  program : List String
  required : RG
  bloch : Option String
  rho : Pauli → ℚ
  gateVal : String
  qubitVal : String
  actionVal : String
  gateOptions : List String
  qubitOptions : List String
  actionOptions : List String

/-- `given_gate` (lines 207–223): an empty (falsy) gate value returns
immediately; a symmetric gate offers only the `"not required"` qubit; any
other gate value restricts the qubit options to the qubits allowing it
(loop order `'1'`, `'0'`). -/
def given_gate (cfg : GameCfg) (s : GameState) : GameState :=
  if s.gateVal = "" then s
  else if s.gateVal ∈ cfg.allowed_both then
    { s with qubitOptions := [cfg.chooseQubit, "not required"],
             qubitVal := "not required" }
  else
    let allowed_qubits :=
      (if s.gateVal ∈ cfg.allowed1 ∨ s.gateVal ∈ cfg.allowed_both
       then ["1"] else []) ++
      (if s.gateVal ∈ cfg.allowed0 ∨ s.gateVal ∈ cfg.allowed_both
       then ["0"] else [])
    let allowed_names :=
      allowed_qubits.map fun q => if q = "0" then cfg.name0 else cfg.name1
    { s with qubitOptions := cfg.chooseQubit :: allowed_names,
             qubitVal := cfg.chooseQubit }

/-- `given_qubit` (lines 225–229): once a real qubit (or `"not required"`)
is selected, enable the confirm action. -/
def given_qubit (cfg : GameCfg) (s : GameState) : GameState :=
  if s.qubitVal = "" ∨ s.qubitVal = cfg.chooseQubit ∨ s.qubitVal = "Success!"
  then s
  else { s with actionOptions := ["Make it happen!", "Apply operation"],
                actionVal := "Make it happen!" }

/-- The `Apply operation` block of `given_action` (lines 238–258): translate
bit gates, resolve the qubit category `q01`, either toggle the Bloch marker
or append the command to the circuit and program, then run the counter
decrement.  `none` embeds the exception raised by an unrecognised gate
(`get_command` leaves `real_command` unbound), which aborts the handler
before any mutation. -/
def apply_op (cfg : GameCfg) (s : GameState) : Option GameState :=
  if s.qubitVal = "" ∨ s.qubitVal = cfg.chooseQubit ∨ s.qubitVal = "Success!"
  then some s
  else
    let q_gate :=
      if s.gateVal = "NOT" then "x"
      else if s.gateVal = "CNOT" then "cx"
      else s.gateVal
    let q01 :=
      (if s.qubitVal = cfg.name0 then "0" else "") ++
      (if s.qubitVal = cfg.name1 then "1" else "") ++
      (if s.qubitVal = "not required" then "both" else "")
    let s2? : Option GameState :=
      if q_gate = "bloch" then
        some { s with bloch := if s.bloch = some q01 then none else some q01 }
      else
        match get_command cfg.name0 cfg.name1 q_gate q01 with
        | some cmd =>
          some { s with qc := s.qc ++ [(q_gate, q01)],
                        program := s.program ++ [cmd.2] }
        | none => none
    s2?.map fun s2 => { s2 with required := decCounter s2.required q01 s.gateVal }

/-- `given_action` (lines 231–269): ignore placeholder values, run the
`Apply operation` block when confirmed, then recompute `grid.rho`
(`get_success` calls `grid.get_rho()`), check success, and either freeze all
three widgets at `'Success!'` or reset them for the next cycle. -/
def given_action (cfg : GameCfg)
    (computeRho : List (String × String) → Pauli → ℚ) (s : GameState) :
    GameState :=
  if s.actionVal = "" ∨ s.actionVal = "Make it happen!" then s
  else
    match (if s.actionVal = "Apply operation" then apply_op cfg s else some s) with
    | none => s
    | some s1 =>
      let rho2 := computeRho s1.qc
      if get_success cfg.success_condition rho2 cfg.eps s1.required then
        { s1 with rho := rho2,
                  gateOptions := ["Success!"], gateVal := "Success!",
                  qubitOptions := ["Success!"], qubitVal := "Success!",
                  actionOptions := ["Success!"], actionVal := "Success!" }
      else
        { s1 with rho := rho2,
                  gateVal := "Choose gate",
                  qubitOptions := [""], qubitVal := "",
                  actionOptions := [""], actionVal := "" }

end HelloQuantum

namespace TocValidator

/-- A parsed YAML value (`yaml.safe_load` output), restricted to the shapes
the manifest uses: strings, lists and string-keyed dictionaries (association
lists in insertion order). -/
inductive YVal where
  | s (v : String)
  | l (vs : List YVal)
  | d (kvs : List (String × YVal))

/-- The failure raised by a validator check.  `bare` embeds a plain `assert`
with no message; `keyError`/`typeError` embed the corresponding Python
exceptions; the remaining constructors embed the `AssertionError`s raised
with an explicit message, carrying the data interpolated into it. -/
inductive VError where
  | bare
  | keyError (key : String)
  | typeError
  | noFile (path : String)
  | badResourceKey (key : String) (resourceRepr : String)
  | unreferenced (path : String)
deriving DecidableEq, Repr

/-- `str(TOC_PATH)`. -/
def tocPath : String := "notebooks/toc.yaml"

/-- `str.startswith(pre)`, computed over the character lists. -/
def strStartsWith (s pre : String) : Bool := pre.toList.isPrefixOf s.toList

/-- `str.endswith(suf)`, computed over the character lists. -/
def strEndsWith (s suf : String) : Bool := suf.toList.isSuffixOf s.toList

/-- The final component of a path string (the characters after the last
`'/'`). -/
def fileName (p : String) : String :=
  String.mk (p.toList.foldl (fun acc c => if c = '/' then [] else acc ++ [c]) [])

/-- `pathlib.PurePath.stem`: the final component without its suffix, where a
suffix is present only when the last dot sits strictly inside the name
(`i = name.rfind('.')` with `0 < i < len(name)-1`). -/
def stem (p : String) : String :=
  let cs := (fileName p).toList
  let dots := (List.range cs.length).filter fun i => cs.getD i ' ' = '.'
  match dots.getLast? with
  | some i => if 0 < i ∧ i < cs.length - 1 then String.mk (cs.take i)
              else String.mk cs
  | none => String.mk cs

/-- The human-readable message attached to a failure, built exactly as the
source builds it (`none` for a bare `assert`; for `keyError`/`typeError` the
interpreter-generated text does not name a manifest path, and is likewise not
a validator-written message).  The resource message reproduces the source's
non-interpolated `\x7bTOC_PATH\x7d` fragment and its `resouce` typo. -/
def VError.message : VError → Option String
  | .bare => none
  | .keyError _ => none
  | .typeError => none
  | .noFile p =>
    some ("No file: " ++ p ++ "\n\n" ++ tocPath ++ " refers to a file (" ++
      p ++ ") that does not exist. Please add the missing file, or remove the reference.")
  | .badResourceKey k r =>
    some ("'" ++ k ++ "' not in resource:\n" ++ r ++
      ".\n\nPlease edit this resouce in \x7bTOC_PATH\x7d to include a value for '" ++
      k ++ "'.")
  | .unreferenced p =>
    some ("Found notebook '" ++ p ++ "' with no reference in '" ++ tocPath ++
      "'.\nTo fix, either add the notebook to '" ++ tocPath ++
      "', or prefix the filename with an underscore (i.e. '" ++ fileName p ++
      "' -> '_" ++ fileName p ++ "').")

/-- `value[key]` on a dictionary (Python raises `KeyError` for a missing key
and `TypeError`-style failures for non-dictionaries). -/
def getItem (v : YVal) (k : String) : Except VError YVal :=
  match v with
  | .d kvs =>
    match kvs.find? (fun kv => kv.1 = k) with
    | some kv => .ok kv.2
    | none => .error (.keyError k)
  | _ => .error .typeError

/-- Use of a value where a string is required (string concatenation,
`str.strip`); anything else raises a `TypeError`/`AttributeError`. -/
def asStr (v : YVal) : Except VError String :=
  match v with
  | .s x => .ok x
  | _ => .error .typeError

/-- Iteration over a value that must be a list. -/
def asList (v : YVal) : Except VError (List YVal) :=
  match v with
  | .l xs => .ok xs
  | _ => .error .typeError

/-- `key in dict`. -/
def hasKey (v : YVal) (k : String) : Bool :=
  match v with
  | .d kvs => kvs.any fun kv => kv.1 = k
  | _ => false

mutual

/-- `repr` of a parsed value, used by the `check_resource` message's
`\x7bresource\x7d` interpolation (string escaping inside values is not
reproduced). -/
def pyRepr : YVal → String
  | .s v => "'" ++ v ++ "'"
  | .l vs => "[" ++ String.intercalate ", " (pyReprList vs) ++ "]"
  | .d kvs => "\x7b" ++ String.intercalate ", " (pyReprKVs kvs) ++ "\x7d"

/-- `repr` of each element of a list value. -/
def pyReprList : List YVal → List String
  | [] => []
  | v :: vs => pyRepr v :: pyReprList vs

/-- `repr` of each key-value pair of a dictionary value. -/
def pyReprKVs : List (String × YVal) → List String
  | [] => []
  | kv :: kvs => ("'" ++ kv.1 ++ "': " ++ pyRepr kv.2) :: pyReprKVs kvs

end

/-- `str` of a parsed value (`f"notebooks/{section['url']}.ipynb"`
formatting): a string formats to itself, containers to their `repr`. -/
def pyStr : YVal → String
  | .s v => v
  | v => pyRepr v

/-- `path.strip('/')`: remove leading and trailing slashes. -/
def pstrip (path : String) : String :=
  String.mk
    (((path.toList.dropWhile (· = '/')).reverse.dropWhile (· = '/')).reverse)

/-- `check_exists` (toc.py lines 9–15): resolve
`NOTEBOOKS_PATH / path.strip('/')` and fail with the descriptive
`No file:` message when the path is not in the filesystem `fs`. -/
def check_exists (fs : List String) (path : String) : Except VError Unit :=
  if fs.contains ("notebooks/" ++ pstrip path) then .ok ()
  else .error (.noFile ("notebooks/" ++ pstrip path))

/-- The keys a resource may carry (toc.py line 19). -/
def resourceKeys : List String := ["title", "description", "link", "author"]

/-- `check_resource` (lines 17–23): the first key outside `resourceKeys`
raises an `AssertionError` whose message names that key and the resource. -/
def check_resource (resource : YVal) : Except VError Unit :=
  match resource with
  | .d kvs =>
    match kvs.find? (fun kv => ¬ resourceKeys.contains kv.1) with
    | some kv => .error (.badResourceKey kv.1 (pyRepr resource))
    | none => .ok ()
  | _ => .error .typeError

/-- `check_page` (lines 25–27). -/
def check_page (fs : List String) (page : YVal) : Except VError Unit := do
  let u ← getItem page "url"
  let us ← asStr u
  check_exists fs (us ++ ".ipynb")
  let pv ← getItem page "previewImgUrl"
  let pvs ← asStr pv
  check_exists fs pvs

/-- The course types accepted by line 30. -/
def courseTypes : List String := ["chapter", "course", "summer-school"]

/-- The keys `overviewInfo` may carry (lines 35–39). -/
def overviewKeys : List String :=
  ["description", "thumbnailUrl", "prerequisites",
   "externalRecommendedReadings", "externalRecommendedReadingsPreamble"]

/-- Lines 34–39: the bare `assert` that every `overviewInfo` key lies in
`overviewKeys` (the first offending key raises with no message). -/
def check_overview_keys (ov : YVal) : Except VError Unit :=
  match ov with
  | .d kvs =>
    match kvs.find? (fun kv => ¬ overviewKeys.contains kv.1) with
    | some _ => .error .bare
    | none => .ok ()
  | _ => .error .typeError

/-- `check_course` (lines 29–47), in source order: the bare `assert` on the
course type, the `description` `short`/`long` accesses, the thumbnail
existence check, the bare `assert` over the `overviewInfo` keys, the page
checks, and the resource checks of both reading lists. -/
def check_course (fs : List String) (course : YVal) : Except VError Unit := do
  let t ← getItem course "type"
  (match t with
   | .s v => if courseTypes.contains v then Except.ok () else .error .bare
   | _ => Except.error .bare)
  let ov ← getItem course "overviewInfo"
  let desc ← getItem ov "description"
  let _ ← getItem desc "short"
  let _ ← getItem desc "long"
  let th ← getItem ov "thumbnailUrl"
  let ths ← asStr th
  check_exists fs ths
  check_overview_keys ov
  let secs ← getItem course "sections"
  let secsL ← asList secs
  secsL.forM (check_page fs)
  (if hasKey ov "externalRecommendedReadings" then do
    let rs ← getItem ov "externalRecommendedReadings"
    let rsL ← asList rs
    rsL.forM check_resource
   else Except.ok ())
  if hasKey ov "prerequisites" then do
    let rs ← getItem ov "prerequisites"
    let rsL ← asList rs
    rsL.forM check_resource
  else Except.ok ()

/-- Lines 56–61: the notebook paths referenced by the manifest,
`Path(f"notebooks/{section['url']}.ipynb")` for every page of every
course. -/
def referencedOf (toc : List YVal) : Except VError (List String) := do
  let ls ← toc.mapM fun c => do
    let secs ← getItem c "sections"
    let secsL ← asList secs
    secsL.mapM fun sec => do
      let u ← getItem sec "url"
      pure ("notebooks/" ++ pyStr u ++ ".ipynb")
  pure ls.flatten

/-- Lines 62–72: every notebook found under the tree must be referenced,
unless its stem starts with `'_'` or ends with `'-checkpoint'`; the first
offender raises the `Found notebook` message. -/
def check_unreferenced (referenced : List String) :
    List String → Except VError Unit
  | [] => .ok ()
  | nb :: rest =>
    if referenced.contains nb then check_unreferenced referenced rest
    else if strStartsWith (stem nb) "_" then check_unreferenced referenced rest
    else if strEndsWith (stem nb) "-checkpoint" then
      check_unreferenced referenced rest
    else .error (.unreferenced nb)

/-- The whole `__main__` pass (lines 49–72): check every course, then check
every notebook of the tree for a reference; the first violation halts the
pass. -/
def validate_toc (fs : List String) (toc : List YVal)
    (notebooks : List String) : Except VError Unit := do
  toc.forM (check_course fs)
  let referenced ← referencedOf toc
  check_unreferenced referenced notebooks

end TocValidator

/-! ## Theorems -/

open HelloQuantum TocValidator

/-- A left fold of `Bool.and` over a list equals the initial accumulator
conjoined with `List.all`. -/
lemma foldl_and_eq {α : Type} (f : α → Bool) :
    ∀ (l : List α) (b : Bool), l.foldl (fun s x => s && f x) b = (b && l.all f)
  | [], b => by simp
  | a :: l, b => by
    rw [List.foldl_cons, foldl_and_eq f l (b && f a), List.all_cons,
      Bool.and_assoc]

/-- The nested fold of `get_success` over the counter dictionary equals the
initial accumulator conjoined with a nested `List.all`. -/
lemma foldl_nested_and_eq {α β : Type} (f : β → Bool) :
    ∀ (l : List (α × List β)) (b : Bool),
      l.foldl (fun s x => x.2.foldl (fun t y => t && f y) s) b =
        (b && l.all fun x => x.2.all f)
  | [], b => by simp
  | a :: l, b => by
    rw [List.foldl_cons, foldl_and_eq f a.2 b,
      foldl_nested_and_eq f l (b && a.2.all f), List.all_cons, Bool.and_assoc]

/-- C1: `get_success` returns `True` if and only if every Pauli string of the
success-condition map has `|target − computed| < eps` and every counter of
`required_gates` is zero; if either conjunct fails for any entry the fold
returns `False`. -/
theorem claim_C1_success_iff (sc : List (Pauli × ℚ)) (rho : Pauli → ℚ)
    (eps : ℚ) (rg : RG) :
    get_success sc rho eps rg = true ↔
      ((∀ pt ∈ sc, |pt.2 - rho pt.1| < eps) ∧
       ∀ qgs ∈ rg, ∀ gn ∈ qgs.2, gn.2 = (0 : Int)) := by
  unfold get_success
  rw [foldl_nested_and_eq, foldl_and_eq, Bool.true_and, Bool.and_eq_true,
    List.all_eq_true, List.all_eq_true]
  simp

/-- C3 counterexample: at a concrete input whose expectation dictionary lacks
the key `'ZI'`, the box for `'ZI'` is hidden although all three documented
filters pass — so visibility does not equal the conjunction of exactly the
three filters and is not a function of `(hidden, qubit, corr, pauli)`
alone. -/
theorem claim_C3_counterexample :
    see_if_unhidden [(PChar.X, PChar.X)] [] true true (PChar.Z, PChar.I) = false ∧
    three_filter_spec [] true true (PChar.Z, PChar.I) = true := by
  decide

/-- C3 (amended): box visibility is a pure function of
`(rho keys, hiddenQubits, showBothCircles, showCorrelationCircles, Pauli)`
and equals the conjunction of the three documented filters AND the further
condition that the Pauli string is a key of the current expectation
dictionary. -/
theorem claim_C3_amended (rhoKeys : List Pauli) (hidden : List (Fin 2))
    (qubit : Bool) (corr : Bool) (pauli : Pauli) :
    see_if_unhidden rhoKeys hidden qubit corr pauli =
      (three_filter_spec hidden qubit corr pauli &&
       decide (pauli ∈ rhoKeys)) := by
  unfold see_if_unhidden three_filter_spec
  rw [foldl_and_eq]
  cases qubit <;> cases corr <;>
    simp [List.all_cons, Bool.and_assoc, Bool.and_comm, Bool.and_left_comm]

/-- C10: beyond the three documented filters, `see_if_unhidden` requires its
Pauli string to be a key of the current expectation dictionary (the one
installed by `update_grid` from a caller-supplied `rho`); a box whose Pauli
string is missing from that dictionary is hidden. -/
theorem claim_C10_fourth_filter (hidden : List (Fin 2)) (qubit corr : Bool)
    (given computed : List (Pauli × ℚ)) (pauli : Pauli)
    (_hne : given ≠ [])
    (hmiss : pauli ∉ (update_grid_rho (some given) computed).map Prod.fst) :
    see_if_unhidden ((update_grid_rho (some given) computed).map Prod.fst)
      hidden qubit corr pauli = false := by
  unfold see_if_unhidden
  simp [hmiss]

/-- C10 witness: a caller-supplied `rho` containing only `'XX'` hides the
`'ZI'` box even though the three documented filters would show it. -/
theorem claim_C10_witness :
    see_if_unhidden
      ((update_grid_rho (some [((PChar.X, PChar.X), 1)]) []).map Prod.fst)
      [] true true (PChar.Z, PChar.I) = false :=
  claim_C10_fourth_filter [] true true [((PChar.X, PChar.X), 1)] []
    (PChar.Z, PChar.I) (by decide) (by decide)

/-- C4: with the exact statevector backend and no gates applied (the `|00⟩`
state), the computed expectation map assigns `1` to `'ZI'`, `'IZ'` and
`'ZZ'` and `0` to every other Pauli string — both without and with the
Y-observable boxes. -/
theorem claim_C4_initial_rho :
    get_rho false ket00 =
      [((PChar.X, PChar.I), 0), ((PChar.Z, PChar.I), 1),
       ((PChar.I, PChar.X), 0), ((PChar.I, PChar.Z), 1),
       ((PChar.Z, PChar.Z), 1), ((PChar.Z, PChar.X), 0),
       ((PChar.X, PChar.Z), 0), ((PChar.X, PChar.X), 0)] ∧
    get_rho true ket00 =
      [((PChar.X, PChar.I), 0), ((PChar.Y, PChar.I), 0),
       ((PChar.Z, PChar.I), 1), ((PChar.I, PChar.X), 0),
       ((PChar.I, PChar.Y), 0), ((PChar.I, PChar.Z), 1),
       ((PChar.Z, PChar.Z), 1), ((PChar.Z, PChar.X), 0),
       ((PChar.X, PChar.Z), 0), ((PChar.X, PChar.X), 0),
       ((PChar.Y, PChar.Y), 0), ((PChar.Y, PChar.X), 0),
       ((PChar.Y, PChar.Z), 0), ((PChar.X, PChar.Y), 0),
       ((PChar.Z, PChar.Y), 0)] := by
  constructor <;>
    norm_num [get_rho, rho_update, ps, corr, singleProb, corrProb, outcomes,
      strAt, otherIdx, mkPauli, bval, probSpec, probOf, rotate, applyH,
      applySdg, ket00, getQ, setQ, GI.normSq, GI.mulNegI, GI.add, GI.sub]

/-- The loop-built single-qubit `-1`-probability equals the spec's sum over
the bases whose character at index `j` is `p`, for every letter `p` drawn
from `ps`. -/
lemma singleProb_eq_spec (yb : Bool) (results : Pauli → Outcome → ℚ)
    (j : Fin 2) (p : PChar) (hp : p ∈ ps yb) :
    singleProb yb results j p = probSpecSingle yb results j p := by
  fin_cases j <;> cases yb <;> fin_cases hp <;>
    (simp +decide [singleProb, probSpecSingle, probOne, ps, corr, outcomes,
      strAt, otherIdx, pauliChar, bval, mkPauli]
     try ring)

/-- The loop-built correlator `-1`-probability equals the spec's total
probability of anticorrelated bit pairs. -/
lemma corrProb_eq_spec (results : Pauli → Outcome → ℚ) (b : Pauli) :
    corrProb results b = probSpecCorr results b := by
  simp +decide [corrProb, probSpecCorr, outcomes]
  try ring

/-- C5: every value of the computed expectation map equals `1 - 2p`, where
`p` is, for a two-qubit correlator, the total probability of anticorrelated
bit pairs in that correlator's basis and, for a single-qubit marginal, the
sum over every basis whose character for that qubit is the given Pauli of
the probability of outcome `'1'` on that qubit, each contribution divided by
the literal `2 + y_boxes`. -/
theorem claim_C5_expectation_formula (yb : Bool)
    (results : Pauli → Outcome → ℚ) (p : Pauli) (v : ℚ)
    (h : (p, v) ∈ rho_update yb results) :
    v = 1 - 2 * probSpec yb results p := by
  simp only [rho_update] at h
  rw [List.mem_map] at h
  obtain ⟨pv, hmem, heq⟩ := h
  rw [Prod.mk.injEq] at heq
  obtain ⟨hp1, hv1⟩ := heq
  subst hp1
  subst hv1
  rcases List.mem_append.mp hmem with hs | hc
  · rcases List.mem_append.mp hs with h0 | h0
    · rw [List.mem_map] at h0
      obtain ⟨pp, hpp, rfl⟩ := h0
      have h2 := singleProb_eq_spec yb results 0 pp hpp
      cases yb <;> fin_cases hpp <;> simp +decide [mkPauli, probSpec, h2]
    · rw [List.mem_map] at h0
      obtain ⟨pp, hpp, rfl⟩ := h0
      have h2 := singleProb_eq_spec yb results 1 pp hpp
      cases yb <;> fin_cases hpp <;> simp +decide [mkPauli, probSpec, h2]
  · rw [List.mem_map] at hc
    obtain ⟨b, hb, rfl⟩ := hc
    have h2 := corrProb_eq_spec results b
    cases yb <;> fin_cases hb <;> simp +decide [probSpec, h2]

/-- C5 witness: at the all-zero distribution, the `'XI'` entry of the
expectation map is `1`, and the theorem instantiates to the spec formula. -/
theorem claim_C5_witness :
    (1 : ℚ) = 1 - 2 * probSpec false (fun _ _ => (0 : ℚ)) (PChar.X, PChar.I) :=
  claim_C5_expectation_formula false (fun _ _ => (0 : ℚ)) (PChar.X, PChar.I) 1
    (by simp +decide [rho_update, ps, corr, mkPauli, singleProb, corrProb,
      outcomes, strAt, otherIdx, bval])

/-- `find?` by key commutes with mapping a key-preserving function. -/
lemma find?_map_keyeq {β : Type} (l : List (String × β)) (f : String × β → String × β)
    (hf : ∀ x, (f x).1 = x.1) (k : String) :
    (l.map f).find? (fun x => x.1 = k) = (l.find? (fun x => x.1 = k)).map f := by
  rw [List.find?_map]
  have hcomp : ((fun x => decide (x.1 = k)) ∘ f) = (fun x => decide (x.1 = k)) := by
    funext x
    simp [Function.comp, hf]
  rw [hcomp]

/-- One accepted action changes exactly the counter at the chosen keys, and
changes it by the conditional decrement of the source. -/
lemma rgGet_decCounter (rg : RG) (q2 g2 q g : String) :
    rgGet (decCounter rg q2 g2) q g =
      (rgGet rg q g).map fun n =>
        if q = q2 ∧ g = g2 then (if 0 < n then n - 1 else n) else n := by
  unfold rgGet decCounter
  rw [find?_map_keyeq _ _ (fun x => by by_cases hx : x.1 = q2 <;> simp [hx])]
  cases hfind : rg.find? (fun x => decide (x.1 = q)) with
  | none => simp
  | some qgs =>
    have hq : qgs.1 = q := by simpa using List.find?_some hfind
    by_cases hq2 : qgs.1 = q2
    · simp only [Option.map_some', Option.some_bind, if_pos hq2]
      rw [find?_map_keyeq _ _ (fun x => by by_cases hx : x.1 = g2 <;> simp [hx])]
      cases hfg : qgs.2.find? (fun x => decide (x.1 = g)) with
      | none => simp
      | some gn =>
        have hg : gn.1 = g := by simpa using List.find?_some hfg
        by_cases hgg : gn.1 = g2
        · have hcond : q = q2 ∧ g = g2 := ⟨hq ▸ hq2, hg ▸ hgg⟩
          simp [hgg, hcond]
        · have hcond : ¬ (q = q2 ∧ g = g2) := by
            rintro ⟨h1, h2⟩
            exact hgg (hg.symm ▸ h2)
          simp [hgg, hcond]
    · have hcond : ¬ (q = q2 ∧ g = g2) := by
        rintro ⟨h1, h2⟩
        exact hq2 (hq.symm ▸ h1)
      simp only [Option.map_some', Option.some_bind, if_neg hq2]
      cases hfg : qgs.2.find? (fun x => decide (x.1 = g)) with
      | none => simp
      | some gn => simp [hcond]

/-- Along any accepted action sequence a counter stays defined, never
increases, and stays non-negative when it started non-negative. -/
lemma rgGet_run_actions (acts : List (String × String)) (rg : RG) (q g : String)
    (n : Int) (h : rgGet rg q g = some n) :
    ∃ m, rgGet (run_actions rg acts) q g = some m ∧ m ≤ n ∧ (0 ≤ n → 0 ≤ m) := by
  induction acts generalizing rg n with
  | nil => exact ⟨n, h, le_refl n, fun hn => hn⟩
  | cons a acts ih =>
    have hstep := rgGet_decCounter rg a.1 a.2 q g
    rw [h] at hstep
    simp only [Option.map_some'] at hstep
    obtain ⟨m, hm, hle, hpos⟩ := ih (decCounter rg a.1 a.2) _ hstep
    refine ⟨m, hm, hle.trans ?_, fun hn => hpos ?_⟩
    · split_ifs <;> omega
    · split_ifs <;> omega

/-- C2: for every accepted action sequence, every required-gate counter that
starts non-negative is monotonically non-increasing and never negative along
the whole run; each accepted action decrements the counter of its own
(qubit category, gate) keys by exactly one when positive, leaves it
unchanged when zero (or negative), and leaves every other counter
unchanged. -/
theorem claim_C2_counters_monotone (rg : RG) (acts : List (String × String)) (q g : String)
    (n : Int) (h0 : rgGet rg q g = some n) (hn : 0 ≤ n) :
    ∀ i : Nat, ∃ mi mj : Int,
      rgGet (run_actions rg (acts.take i)) q g = some mi ∧
      rgGet (run_actions rg (acts.take (i+1))) q g = some mj ∧
      0 ≤ mi ∧ mj ≤ mi ∧
      (acts.getD i (q, g) ≠ (q, g) → mj = mi) ∧
      (i < acts.length → acts.getD i (q, g) = (q, g) →
        mj = if 0 < mi then mi - 1 else mi) := by
  intro i
  obtain ⟨mi, hmi, hle, hpos⟩ := rgGet_run_actions (acts.take i) rg q g n h0
  by_cases hi : i < acts.length
  · have htake : acts.take (i+1) = acts.take i ++ [acts.get ⟨i, hi⟩] := by
      rw [List.take_succ]
      simp [List.getElem?_eq_getElem hi]
    have hstep := rgGet_decCounter (run_actions rg (acts.take i))
      (acts.get ⟨i, hi⟩).1 (acts.get ⟨i, hi⟩).2 q g
    rw [hmi] at hstep
    simp only [Option.map_some'] at hstep
    have hrun : run_actions rg (acts.take (i+1)) =
        decCounter (run_actions rg (acts.take i))
          (acts.get ⟨i, hi⟩).1 (acts.get ⟨i, hi⟩).2 := by
      rw [htake]
      unfold run_actions
      rw [List.foldl_append]
      rfl
    have hgetD : acts.getD i (q, g) = acts.get ⟨i, hi⟩ := by
      simp [List.getD, List.getElem?_eq_getElem hi]
    refine ⟨mi, _, hmi, by rw [hrun]; exact hstep, hpos hn, ?_, ?_, ?_⟩
    · split_ifs <;> omega
    · intro hne
      rw [hgetD] at hne
      have hcond : ¬ (q = (acts.get ⟨i, hi⟩).1 ∧ g = (acts.get ⟨i, hi⟩).2) := by
        rintro ⟨h1, h2⟩
        exact hne (show acts.get ⟨i, hi⟩ = (q, g) from
          Prod.ext_iff.mpr ⟨h1.symm, h2.symm⟩)
      rw [if_neg hcond]
    · intro _ heq
      rw [hgetD] at heq
      have hcond : q = (acts.get ⟨i, hi⟩).1 ∧ g = (acts.get ⟨i, hi⟩).2 := by
        rw [heq]
        exact ⟨rfl, rfl⟩
      rw [if_pos hcond]
  · have htake2 : acts.take (i+1) = acts.take i := by
      rw [List.take_of_length_le (by omega), List.take_of_length_le (by omega)]
    exact ⟨mi, mi, hmi, by rw [htake2]; exact hmi, hpos hn, le_refl mi,
      fun _ => rfl, fun hlt _ => absurd hlt (by omega)⟩

/-- C2 witness: one `('0','x')` action against the counter dictionary
`{'0': {'x': 2}}`, instantiating the trajectory theorem at step 0. -/
theorem claim_C2_witness :
    ∃ mi mj : Int,
      rgGet (run_actions [("0", [("x", 2)])]
        (([("0", "x"), ("0", "x")] : List (String × String)).take 0)) "0" "x" = some mi ∧
      rgGet (run_actions [("0", [("x", 2)])]
        (([("0", "x"), ("0", "x")] : List (String × String)).take (0+1))) "0" "x" = some mj ∧
      0 ≤ mi ∧ mj ≤ mi ∧
      (([("0", "x"), ("0", "x")] : List (String × String)).getD 0 ("0", "x") ≠ ("0", "x") → mj = mi) ∧
      (0 < ([("0", "x"), ("0", "x")] : List (String × String)).length →
        ([("0", "x"), ("0", "x")] : List (String × String)).getD 0 ("0", "x") = ("0", "x") →
        mj = if 0 < mi then mi - 1 else mi) :=
  claim_C2_counters_monotone [("0", [("x", 2)])] [("0", "x"), ("0", "x")]
    "0" "x" 2 (by rfl) (by decide) 0

/-- C6: in a frozen state — all three widgets showing only `'Success!'`, the
stored expectation map agreeing with the backend, and the success predicate
holding — every further widget event leaves the circuit, the program, the
required-gate counters and the expectation map unchanged, and `given_action`
re-freezes the widgets at `'Success!'`. -/
theorem claim_C6_freeze (cfg : GameCfg)
    (computeRho : List (String × String) → Pauli → ℚ) (s : GameState)
    (_hgv : s.gateVal = "Success!") (_hqv : s.qubitVal = "Success!")
    (hav : s.actionVal = "Success!")
    (_hgo : s.gateOptions = ["Success!"]) (_hqo : s.qubitOptions = ["Success!"])
    (_hao : s.actionOptions = ["Success!"])
    (hrho : s.rho = computeRho s.qc)
    (hsucc : get_success cfg.success_condition (computeRho s.qc) cfg.eps
      s.required = true) :
    ((given_gate cfg s).qc = s.qc ∧ (given_gate cfg s).program = s.program ∧
     (given_gate cfg s).required = s.required ∧ (given_gate cfg s).rho = s.rho) ∧
    ((given_qubit cfg s).qc = s.qc ∧ (given_qubit cfg s).program = s.program ∧
     (given_qubit cfg s).required = s.required ∧
     (given_qubit cfg s).rho = s.rho) ∧
    ((given_action cfg computeRho s).qc = s.qc ∧
     (given_action cfg computeRho s).program = s.program ∧
     (given_action cfg computeRho s).required = s.required ∧
     (given_action cfg computeRho s).rho = s.rho ∧
     (given_action cfg computeRho s).gateOptions = ["Success!"] ∧
     (given_action cfg computeRho s).qubitOptions = ["Success!"] ∧
     (given_action cfg computeRho s).actionOptions = ["Success!"] ∧
     (given_action cfg computeRho s).gateVal = "Success!" ∧
     (given_action cfg computeRho s).qubitVal = "Success!" ∧
     (given_action cfg computeRho s).actionVal = "Success!") := by
  refine ⟨?_, ?_, ?_⟩
  · unfold given_gate
    split_ifs <;> simp
  · unfold given_qubit
    split_ifs <;> simp
  · unfold given_action
    rw [hav]
    simp only [if_neg (by decide : ¬ ("Success!" = "" ∨ "Success!" = "Make it happen!")),
      if_neg (by decide : ¬ "Success!" = "Apply operation"), hsucc]
    simp [hrho]

/-- C6 witness: a concrete frozen state (empty success condition, all widgets
at `'Success!'`) on which `given_action` provably leaves the program
unchanged and keeps the action widget frozen. -/
theorem claim_C6_witness :
    (given_action ⟨[], 0, [], [], [], "q[0]", "q[1]", "Choose qubit"⟩
        (fun _ _ => 0)
        ⟨[], [], [], none, fun _ => 0, "Success!", "Success!", "Success!",
         ["Success!"], ["Success!"], ["Success!"]⟩).program = [] ∧
    (given_action ⟨[], 0, [], [], [], "q[0]", "q[1]", "Choose qubit"⟩
        (fun _ _ => 0)
        ⟨[], [], [], none, fun _ => 0, "Success!", "Success!", "Success!",
         ["Success!"], ["Success!"], ["Success!"]⟩).actionOptions =
      ["Success!"] :=
  have t := claim_C6_freeze
    ⟨[], 0, [], [], [], "q[0]", "q[1]", "Choose qubit"⟩ (fun _ _ => 0)
    ⟨[], [], [], none, fun _ => 0, "Success!", "Success!", "Success!",
     ["Success!"], ["Success!"], ["Success!"]⟩
    rfl rfl rfl rfl rfl rfl rfl rfl
  ⟨t.2.2.2.1, t.2.2.2.2.2.2.2.1⟩

/-- For the default qubit names, `get_command` succeeds exactly on the gate
vocabulary (for any of the three legal qubit arguments). -/
lemma get_command_isSome (g q : String) (hq : q = "0" ∨ q = "1" ∨ q = "both") :
    ((get_command "q[0]" "q[1]" g q).isSome = true) ↔ g ∈ gate_vocab := by
  rcases hq with rfl | rfl | rfl <;>
    · unfold get_command gate_vocab
      split_ifs <;> (simp_all; try tauto)

/-- The initializer loop succeeds exactly when every gate name is in the
vocabulary (given legal qubit arguments). -/
lemma applyInitializer_isSome :
    ∀ gates : List (String × String),
      (∀ g ∈ gates, g.2 = "0" ∨ g.2 = "1" ∨ g.2 = "both") →
      ((applyInitializer gates).isSome = true ↔ ∀ g ∈ gates, g.1 ∈ gate_vocab)
  | [], _ => by simp [applyInitializer]
  | g :: gs, hq => by
    have hg := get_command_isSome g.1 g.2 (hq g (by simp))
    have ih := applyInitializer_isSome gs (fun x hx => hq x (by simp [hx]))
    unfold applyInitializer
    cases hc : get_command "q[0]" "q[1]" g.1 g.2 with
    | none =>
      rw [hc] at hg
      replace hg : ¬ g.1 ∈ gate_vocab := by simpa using hg
      cases hrec : applyInitializer gs with
      | none =>
        exact iff_of_false (by simp) fun hall => hg (hall g (by simp))
      | some cs =>
        exact iff_of_false (by simp) fun hall => hg (hall g (by simp))
    | some c =>
      rw [hc] at hg
      replace hg : g.1 ∈ gate_vocab := by simpa using hg
      cases hrec : applyInitializer gs with
      | none =>
        rw [hrec] at ih
        replace ih : ¬ ∀ x ∈ gs, x.1 ∈ gate_vocab := by simpa using ih
        exact iff_of_false (by simp)
          fun hall => ih fun x hx => hall x (by simp [hx])
      | some cs =>
        rw [hrec] at ih
        replace ih : ∀ x ∈ gs, x.1 ∈ gate_vocab := by simpa using ih
        refine iff_of_true (by simp) ?_
        intro x hx
        rcases List.mem_cons.mp hx with rfl | hx2
        · exact hg
        · exact ih x hx2

/-- On success the initializer produces exactly one command per gate, in
order. -/
lemma applyInitializer_get :
    ∀ (gates : List (String × String)) (cmds : List (String × String)),
      applyInitializer gates = some cmds →
      cmds.length = gates.length ∧
      ∀ i (hi : i < gates.length) (hi2 : i < cmds.length),
        get_command "q[0]" "q[1]" (gates.get ⟨i, hi⟩).1 (gates.get ⟨i, hi⟩).2 =
          some (cmds.get ⟨i, hi2⟩)
  | [], cmds, h => by
    simp only [applyInitializer, Option.some_inj] at h
    subst h
    exact ⟨rfl, fun i hi => absurd hi (by simp)⟩
  | g :: gs, cmds, h => by
    unfold applyInitializer at h
    cases hc : get_command "q[0]" "q[1]" g.1 g.2 with
    | none => rw [hc] at h; exact absurd h (by simp)
    | some c =>
      rw [hc] at h
      cases hrec : applyInitializer gs with
      | none => rw [hrec] at h; exact absurd h (by simp)
      | some cs =>
        rw [hrec] at h
        simp only [Option.some_inj] at h
        subst h
        obtain ⟨hlen, hget⟩ := applyInitializer_get gs cs hrec
        refine ⟨by simp [hlen], ?_⟩
        intro i hi hi2
        cases i with
        | zero => simpa using hc
        | succ i2 =>
          have := hget i2 (by simpa using hi) (by simpa using hi2)
          simpa using this

/-- C7: an initializer list constructs successfully exactly when every gate
name lies in the fixed vocabulary, and on success it yields the command of
each gate in order (the first out-of-vocabulary gate aborts construction). -/
theorem claim_C7_initializer_vocab (gates : List (String × String))
    (hq : ∀ g ∈ gates, g.2 = "0" ∨ g.2 = "1" ∨ g.2 = "both") :
    ((applyInitializer gates).isSome = true ↔ ∀ g ∈ gates, g.1 ∈ gate_vocab) ∧
    ∀ cmds, applyInitializer gates = some cmds →
      cmds.length = gates.length ∧
      ∀ i (hi : i < gates.length) (hi2 : i < cmds.length),
        get_command "q[0]" "q[1]" (gates.get ⟨i, hi⟩).1 (gates.get ⟨i, hi⟩).2 =
          some (cmds.get ⟨i, hi2⟩) :=
  ⟨applyInitializer_isSome gates hq,
   fun cmds h => applyInitializer_get gates cmds h⟩

/-- C7 witness: the concrete initializer `[('x','0'), ('cz','both')]` is in
vocabulary and constructs; the instantiated theorem is closed. -/
theorem claim_C7_witness :
    ((applyInitializer [("x", "0"), ("cz", "both")]).isSome = true ↔
      ∀ g ∈ [("x", "0"), ("cz", "both")], g.1 ∈ gate_vocab) ∧
    ∀ cmds, applyInitializer [("x", "0"), ("cz", "both")] = some cmds →
      cmds.length = ([("x", "0"), ("cz", "both")] : List (String × String)).length ∧
      ∀ i (hi : i < ([("x", "0"), ("cz", "both")] : List (String × String)).length)
        (hi2 : i < cmds.length),
        get_command "q[0]" "q[1]"
            (([("x", "0"), ("cz", "both")] : List (String × String)).get ⟨i, hi⟩).1
            (([("x", "0"), ("cz", "both")] : List (String × String)).get ⟨i, hi⟩).2 =
          some (cmds.get ⟨i, hi2⟩) :=
  claim_C7_initializer_vocab [("x", "0"), ("cz", "both")] (by decide)

/-- C9: the unreferenced-notebook pass succeeds exactly when every notebook
found under the tree is referenced by some page entry or exempt (stem
starting with an underscore or ending in `-checkpoint`); when it fails, the
error names a notebook that is in the tree, unreferenced and not exempt. -/
theorem claim_C9_unreferenced (referenced notebooks : List String) :
    (check_unreferenced referenced notebooks = Except.ok () ↔
      ∀ nb ∈ notebooks, nb ∈ referenced ∨ strStartsWith (stem nb) "_" = true ∨
        strEndsWith (stem nb) "-checkpoint" = true) ∧
    ∀ e, check_unreferenced referenced notebooks = Except.error e →
      ∃ nb, nb ∈ notebooks ∧ e = VError.unreferenced nb ∧ nb ∉ referenced ∧
        strStartsWith (stem nb) "_" = false ∧
        strEndsWith (stem nb) "-checkpoint" = false := by
  induction notebooks with
  | nil => exact ⟨by simp [check_unreferenced], fun e h => by
      simp [check_unreferenced] at h⟩
  | cons nb rest ih =>
    obtain ⟨ih1, ih2⟩ := ih
    unfold check_unreferenced
    by_cases h1 : referenced.contains nb
    · rw [if_pos h1]
      have hmem : nb ∈ referenced := by simpa using h1
      refine ⟨?_, ?_⟩
      · rw [ih1]
        constructor
        · intro hall x hx
          rcases List.mem_cons.mp hx with rfl | hx2
          · exact Or.inl hmem
          · exact hall x hx2
        · intro hall x hx
          exact hall x (by simp [hx])
      · intro e he
        obtain ⟨x, hx, rest2⟩ := ih2 e he
        exact ⟨x, by simp [hx], rest2⟩
    · rw [if_neg h1]
      have hmem : nb ∉ referenced := by simpa using h1
      by_cases h2 : strStartsWith (stem nb) "_"
      · rw [if_pos h2]
        refine ⟨?_, ?_⟩
        · rw [ih1]
          constructor
          · intro hall x hx
            rcases List.mem_cons.mp hx with rfl | hx2
            · exact Or.inr (Or.inl h2)
            · exact hall x hx2
          · intro hall x hx
            exact hall x (by simp [hx])
        · intro e he
          obtain ⟨x, hx, rest2⟩ := ih2 e he
          exact ⟨x, by simp [hx], rest2⟩
      · rw [if_neg h2]
        by_cases h3 : strEndsWith (stem nb) "-checkpoint"
        · rw [if_pos h3]
          refine ⟨?_, ?_⟩
          · rw [ih1]
            constructor
            · intro hall x hx
              rcases List.mem_cons.mp hx with rfl | hx2
              · exact Or.inr (Or.inr h3)
              · exact hall x hx2
            · intro hall x hx
              exact hall x (by simp [hx])
          · intro e he
            obtain ⟨x, hx, rest2⟩ := ih2 e he
            exact ⟨x, by simp [hx], rest2⟩
        · rw [if_neg h3]
          refine ⟨?_, ?_⟩
          · constructor
            · intro hfalse
              exact absurd hfalse (by simp)
            · intro hall
              rcases hall nb (by simp) with hc | hc | hc
              · exact absurd hc hmem
              · exact absurd hc h2
              · exact absurd hc h3
          · intro e he
            refine ⟨nb, by simp, ?_, hmem, by simpa using h2, by simpa using h3⟩
            simpa using he.symm

/-- C9 witness: with an empty manifest, a notebook `notebooks/a.ipynb` in
the tree makes the pass fail naming exactly that notebook. -/
theorem claim_C9_witness :
    ∃ nb, nb ∈ ["notebooks/a.ipynb"] ∧
      VError.unreferenced "notebooks/a.ipynb" = VError.unreferenced nb ∧
      nb ∉ ([] : List String) ∧ strStartsWith (stem nb) "_" = false ∧
      strEndsWith (stem nb) "-checkpoint" = false :=
  (claim_C9_unreferenced [] ["notebooks/a.ipynb"]).2
    (VError.unreferenced "notebooks/a.ipynb") (by rfl)

/-- C8 counterexample: a course whose `type` is outside the accepted set
makes `check_course` fail with a bare assertion carrying no message at all —
so not every failing check reports a descriptive message naming the
offending path or key. -/
theorem claim_C8_counterexample :
    check_course [] (YVal.d [("type", YVal.s "lesson")]) =
      Except.error VError.bare ∧
    VError.message VError.bare = none :=
  ⟨rfl, rfl⟩

/-- A traversal in the `Except` monad halts at the first failing element:
when every element of the prefix passes and `c` fails, the whole traversal
fails with exactly that error, whatever elements follow. -/
lemma forM_ok_append_error {α : Type} (f : α → Except VError Unit) :
    ∀ l1 : List α, (∀ x ∈ l1, f x = Except.ok ()) →
      ∀ (c : α) (l2 : List α) (e : VError), f c = Except.error e →
        (l1 ++ c :: l2).forM f = Except.error e
  | [], _, c, l2, e, hc => by
    show (f c >>= fun _ => l2.forM f) = Except.error e
    rw [hc]
    rfl
  | x :: l1, hok, c, l2, e, hc => by
    have hx := hok x (by simp)
    show (f x >>= fun _ => (l1 ++ c :: l2).forM f) = Except.error e
    rw [hx]
    exact forM_ok_append_error f l1 (fun y hy => hok y (by simp [hy])) c l2 e hc

/-- Every failure of the unreferenced-notebook loop is an `unreferenced`
error naming a notebook of the tree. -/
lemma check_unreferenced_error (refs : List String) :
    ∀ (nbs : List String) (e : VError),
      check_unreferenced refs nbs = Except.error e →
      ∃ p, p ∈ nbs ∧ e = VError.unreferenced p
  | [], e, h => by simp [check_unreferenced] at h
  | nb :: rest, e, h => by
    unfold check_unreferenced at h
    split_ifs at h
    case _ =>
      obtain ⟨p, hp, he⟩ := check_unreferenced_error refs rest e h
      exact ⟨p, by simp [hp], he⟩
    case _ =>
      obtain ⟨p, hp, he⟩ := check_unreferenced_error refs rest e h
      exact ⟨p, by simp [hp], he⟩
    case _ =>
      obtain ⟨p, hp, he⟩ := check_unreferenced_error refs rest e h
      exact ⟨p, by simp [hp], he⟩
    case _ =>
      simp only [Except.error.injEq] at h
      exact ⟨nb, by simp, h.symm⟩

/-- C8 (amended): every failing check is fatal — the first violation halts
the pass by exception with no partial results: the first failing course
determines the outcome of the whole pass whatever courses or notebooks
follow, and in particular a bad course type makes `check_course` fail
immediately whatever else the manifest or filesystem holds.  The
file-existence, resource-key and unreferenced-notebook checks report
descriptive messages carrying the offending path or key, but the
course-type check and the `overviewInfo`-key check raise bare assertions
(or an interpreter `TypeError`) with no message. -/
theorem claim_C8_amended (fs : List String) (course : YVal) (t : String)
    (ht : getItem course "type" = Except.ok (YVal.s t))
    (hbad : courseTypes.contains t = false) :
    check_course fs course = Except.error VError.bare ∧
    VError.message VError.bare = none ∧
    (∀ path e, check_exists fs path = Except.error e →
      ∃ p m, e = VError.noFile p ∧ VError.message e = some m) ∧
    (∀ r e, check_resource r = Except.error e →
      e = VError.typeError ∨
      ∃ k rr m, e = VError.badResourceKey k rr ∧ VError.message e = some m ∧
        resourceKeys.contains k = false) ∧
    (∀ ov e, check_overview_keys ov = Except.error e →
      (e = VError.bare ∨ e = VError.typeError) ∧ VError.message e = none) ∧
    (∀ referenced notebooks e,
      check_unreferenced referenced notebooks = Except.error e →
      ∃ p m, p ∈ notebooks ∧ e = VError.unreferenced p ∧
        VError.message e = some m) ∧
    (∀ (toc1 : List YVal) (c : YVal) (toc2 : List YVal)
        (notebooks : List String) (e : VError),
      (∀ c1 ∈ toc1, check_course fs c1 = Except.ok ()) →
      check_course fs c = Except.error e →
      validate_toc fs (toc1 ++ c :: toc2) notebooks = Except.error e) := by
  refine ⟨?_, rfl, ?_, ?_, ?_, ?_, ?_⟩
  · unfold check_course
    rw [ht]
    simp only [Except.bind, bind]
    rw [hbad]
    rfl
  · intro path e h
    unfold check_exists at h
    split_ifs at h
    all_goals first
      | exact Except.noConfusion h
      | (simp only [Except.error.injEq] at h
         subst h
         exact ⟨_, _, rfl, rfl⟩)
  · intro r e h
    cases r with
    | s v =>
      simp only [check_resource, Except.error.injEq] at h
      exact Or.inl h.symm
    | l vs =>
      simp only [check_resource, Except.error.injEq] at h
      exact Or.inl h.symm
    | d kvs =>
      simp only [check_resource] at h
      cases hf : kvs.find? (fun kv => ¬ resourceKeys.contains kv.1) with
      | none => rw [hf] at h; exact absurd h (by simp)
      | some kv =>
        rw [hf] at h
        simp only [Except.error.injEq] at h
        subst h
        have hkey := List.find?_some hf
        refine Or.inr ⟨kv.1, pyRepr (YVal.d kvs), _, rfl, rfl, ?_⟩
        simpa using hkey
  · intro ov e h
    cases ov with
    | s v =>
      simp only [check_overview_keys, Except.error.injEq] at h
      exact ⟨Or.inr h.symm, h ▸ rfl⟩
    | l vs =>
      simp only [check_overview_keys, Except.error.injEq] at h
      exact ⟨Or.inr h.symm, h ▸ rfl⟩
    | d kvs =>
      simp only [check_overview_keys] at h
      cases hf : kvs.find? (fun kv => ¬ overviewKeys.contains kv.1) with
      | none => rw [hf] at h; exact absurd h (by simp)
      | some kv =>
        rw [hf] at h
        simp only [Except.error.injEq] at h
        exact ⟨Or.inl h.symm, h ▸ rfl⟩
  · intro refs nbs e h
    obtain ⟨p, hp, rfl⟩ := check_unreferenced_error refs nbs e h
    exact ⟨p, _, hp, rfl, rfl⟩
  · intro toc1 c toc2 nbs e hok hc
    unfold validate_toc
    rw [forM_ok_append_error (check_course fs) toc1 hok c toc2 e hc]
    rfl

/-- C8 witness: a concrete course of type `"workshop"` instantiates the
amended theorem — the failure is fatal and carries no message. -/
theorem claim_C8_witness :
    check_course [] (YVal.d [("type", YVal.s "workshop")]) =
      Except.error VError.bare ∧ VError.message VError.bare = none :=
  have t := claim_C8_amended [] (YVal.d [("type", YVal.s "workshop")])
    "workshop" rfl rfl
  ⟨t.1, t.2.1⟩
